import Mathlib

/-!
Verification of http-server/main.go.

A shallow embedding of

    func main() {
        http.HandleFunc("/", func(w http.ResponseWriter, r *http.Request) {
            fmt.Fprintf(w, "simply proxy server")
        })
        http.ListenAndServe(":25252", nil)
    }

together with the parts of the Go runtime and of the packages fmt, path, net and
net/http (the pre-1.22 ServeMux) that the two calls of main reach.
Go strings and byte slices are lists of bytes, a pointer argument is a value that
the callee hands back, a panic is an explicit outcome (an error of Except, the
panicked outcome of a Write, the panic of a handler result), and the outside world of
the listener (does the bind succeed, which requests arrive) is an explicit argument.
-/

namespace HttpServer

/-! ## Strings and bytes -/

/-- Go strings and byte slices: sequences of bytes. -/
abbrev Bytes := List UInt8

/-- The bytes of a Go string literal (Go source text is UTF-8). -/
def bytes (s : String) : Bytes := s.toUTF8.data.toList

/-- Go error values, identified by their message; nil is Option.none. -/
abbrev error := String

/-- Type http.Header: canonical key to list of values. -/
abbrev Header := List (Bytes × List Bytes)

/-- Method Header.get (the first value of the key, the empty string when absent). -/
def Header.get (h : Header) (key : Bytes) : Bytes :=
  match h.lookup key with
  | some (v :: _) => v
  | _ => []

/-- Method Header.Del. -/
def Header.Del (h : Header) (key : Bytes) : Header :=
  h.filter (fun kv => kv.1 ≠ key)

/-- Method Header.Set, for a key already in canonical form. -/
def Header.Set (h : Header) (key value : Bytes) : Header :=
  (key, [value]) :: Header.Del h key

/-- Type url.URL, the fields the server looks at. -/
structure URL where
  Host : Bytes
  Path : Bytes
  RawQuery : Bytes
deriving DecidableEq, Repr

/-- Type http.Request, as the function readRequest of net/http parses it from the
connection: the Host header is still in Header, and the field Host is not yet set
(connRead below sets it as readRequest does). -/
structure Request where
  Method : Bytes
  URL : URL
  ProtoMajor : Nat
  ProtoMinor : Nat
  Header : Header
  Body : Bytes
  Host : Bytes
  RequestURI : Bytes
deriving DecidableEq, Repr

/-- Library code that the program reaches only on branches it does not take, or whose
result it only passes on: every theorem below holds for every choice of these. -/
structure Stdlib where
  /-- Package fmt: what doPrintf emits for the rest of a format that starts with a
  percent sign, when the call has no operands. -/
  verbs : Bytes → Bytes
  /-- Package strconv: ParseInt(s, 10, 64) restricted to results v with v >= 0. -/
  parseLength : Bytes → Option Nat
  /-- Packages net/url and net/http: the target that http.Redirect writes for
  url.URL with the given Path and RawQuery. -/
  redirectURL : Bytes → Bytes → Bytes
  /-- Package net/http: the function DetectContentType. -/
  detectContentType : Bytes → Bytes
  /-- Package httpguts: the function ValidHostHeader. -/
  validHostHeader : Bytes → Bool
  /-- Package httpguts: the function ValidHeaderFieldName. -/
  validHeaderFieldName : Bytes → Bool
  /-- Package httpguts: the function ValidHeaderFieldValue. -/
  validHeaderFieldValue : Bytes → Bool

/-! ## Package fmt -/

/-- Function fmt's doPrintf for a call without operands: bytes before the first
percent sign are copied to the buffer as they are. -/
def doPrintf (lib : Stdlib) : Bytes → Bytes
  | [] => []
  | c :: rest => if c = 37 then lib.verbs (c :: rest) else c :: doPrintf lib rest

/-! ## Interface http.ResponseWriter -/

/-- What a call of Write comes to: it returns a count and an error (nil is none), or it
panics with a value. -/
inductive WriteOutcome where
  | returned (n : Nat) (err : Option error)
  | panicked (v : error)
deriving DecidableEq, Repr

/-- Interface http.ResponseWriter over the state of an implementation. Header()
returns a map that the caller may store into; setHeader is such a store. A call of
Write gives its outcome and the state it leaves. -/
structure ResponseWriter (σ : Type) where
  Header : σ → HttpServer.Header
  setHeader : HttpServer.Header → σ → σ
  Write : Bytes → σ → WriteOutcome × σ
  WriteHeader : Nat → σ → σ

/-- What a call of a handler comes to: the writer and the request as the call leaves
them, and the value of the panic when the call panicked instead of returning. -/
structure HandlerResult (σ : Type) where
  w : σ
  r : Request
  panic : Option error

/-- Function fmt.Fprintf without operands: format into a buffer, then one call of
w.Write with the whole buffer, whose result is returned; a panic of Write passes
through. -/
def Fprintf {σ : Type} (lib : Stdlib) (W : ResponseWriter σ) (w : σ) (format : Bytes) :
    WriteOutcome × σ :=
  W.Write (doPrintf lib format) w

/-- The body the program answers with. -/
def responseText : Bytes := bytes "simply proxy server"

/-- The function literal that main registers: one Fprintf whose results are dropped.
The request pointer is handed back as the handler leaves it. The body has no recover,
so the handler panics when Fprintf does. -/
def rootHandler {σ : Type} (lib : Stdlib) (W : ResponseWriter σ) (w : σ) (r : Request) :
    HandlerResult σ :=
  let res := Fprintf lib W w (bytes "simply proxy server")
  { w := res.2, r := r,
    panic := match res.1 with
      | .returned _ _ => none
      | .panicked v => some v }

/-! ## Writers used to observe a handler -/

/-- One method call on a response writer that changes it. -/
inductive Call where
  | setHeader (h : Header)
  | Write (p : Bytes)
  | WriteHeader (code : Nat)
deriving DecidableEq, Repr

/-- A writer wrapped so that every call made on it is logged, in order. -/
def recording {σ : Type} (W : ResponseWriter σ) : ResponseWriter (σ × List Call) where
  Header := fun s => W.Header s.1
  setHeader := fun h s => (W.setHeader h s.1, s.2 ++ [Call.setHeader h])
  Write := fun p s => ((W.Write p s.1).1, ((W.Write p s.1).2, s.2 ++ [Call.Write p]))
  WriteHeader := fun c s => (W.WriteHeader c s.1, s.2 ++ [Call.WriteHeader c])

/-- The bytes that a log of calls wrote. -/
def writtenBytes : List Call → Bytes
  | [] => []
  | Call.Write p :: cs => p ++ writtenBytes cs
  | _ :: cs => writtenBytes cs

/-- State of a plain writer that keeps what it is given and does nothing else. -/
structure Recorder where
  Code : Option Nat
  HeaderMap : Header
  Body : Bytes
deriving DecidableEq, Repr

/-- The plain keeping writer: the first Write fixes status 200, every Write appends,
and Write leaves the header map alone. (The recorder of package httptest is
ResponseRecorder below; its Write does store into the header map.) -/
def recorderWriter : ResponseWriter Recorder where
  Header := fun s => s.HeaderMap
  setHeader := fun h s => { s with HeaderMap := h }
  Write := fun p s =>
    (.returned p.length none, { s with Code := some (s.Code.getD 200), Body := s.Body ++ p })
  WriteHeader := fun c s => { s with Code := some (s.Code.getD c) }

/-- Type httptest.ResponseRecorder. -/
structure ResponseRecorder where
  Code : Nat
  HeaderMap : Header
  Body : Bytes
  wroteHeader : Bool
deriving DecidableEq, Repr

/-- Function httptest.NewRecorder. -/
def NewRecorder : ResponseRecorder :=
  { Code := 200, HeaderMap := [], Body := [], wroteHeader := false }

/-- Method ResponseRecorder.WriteHeader. -/
def ResponseRecorder.WriteHeader (code : Nat) (rw : ResponseRecorder) : ResponseRecorder :=
  if rw.wroteHeader then rw else { rw with Code := code, wroteHeader := true }

/-- Method ResponseRecorder.writeHeader, which the first Write runs: without a
Content-Type and a Transfer-Encoding it stores the sniffed Content-Type in the header
map, then it fixes status 200. -/
def ResponseRecorder.writeHeader (lib : Stdlib) (b : Bytes) (rw : ResponseRecorder) :
    ResponseRecorder :=
  if rw.wroteHeader then rw
  else
    let hasType : Bool := (rw.HeaderMap.lookup (bytes "Content-Type")).isSome
    let hasTE : Bool := Header.get rw.HeaderMap (bytes "Transfer-Encoding") ≠ []
    let m := Header.Set rw.HeaderMap (bytes "Content-Type") (lib.detectContentType b)
    ResponseRecorder.WriteHeader 200
      (if ¬ hasType ∧ ¬ hasTE then { rw with HeaderMap := m } else rw)

/-- The recorder of package httptest as an implementation of http.ResponseWriter. -/
def httptestWriter (lib : Stdlib) : ResponseWriter ResponseRecorder where
  Header := fun rw => rw.HeaderMap
  setHeader := fun h rw => { rw with HeaderMap := h }
  Write := fun buf rw =>
    (.returned buf.length none,
      { (ResponseRecorder.writeHeader lib buf rw) with
        Body := (ResponseRecorder.writeHeader lib buf rw).Body ++ buf })
  WriteHeader := ResponseRecorder.WriteHeader

/-! ## Package path -/

/-- The inner loop of the dot-dot case of path.Clean, on the buffer with its last
byte first: drop one byte, then keep dropping while more than dotdot bytes are left
and the byte just dropped is not a slash. -/
def backtrack (dotdot : Nat) : Bytes → Bytes
  | [] => []
  | c :: t => if dotdot < t.length ∧ c ≠ 47 then backtrack dotdot t else t

/-- The slash that path.Clean puts before a real path element:
if rooted && out.w != 1 || !rooted && out.w != 0. -/
def addSlash (rooted : Bool) (out : Bytes) : Bytes :=
  if (rooted ∧ out.length ≠ 1) ∨ (¬ rooted ∧ out.length ≠ 0) then 47 :: out else out

/-- The dot-dot case of path.Clean: the new buffer and the new dotdot mark. -/
def dotDot (rooted : Bool) (out : Bytes) (dotdot : Nat) : Bytes × Nat :=
  if dotdot < out.length then (backtrack dotdot out, dotdot)
  else if ¬ rooted then
    ((46 : UInt8) :: 46 :: (if 0 < out.length then 47 :: out else out),
      ((46 : UInt8) :: 46 :: (if 0 < out.length then 47 :: out else out)).length)
  else (out, dotdot)

/-- The main loop of path.Clean over the unread rest of the path. The buffer is kept
with its last byte first; inElem says that the loop is copying a real path element
(the inner for loop of the default case). -/
def cleanLoop (rooted : Bool) : Bytes → Bool → Bytes → Nat → Bytes
  | [], _, out, _ => out
  | c :: rest, true, out, dotdot =>
    if c = 47 then cleanLoop rooted rest false out dotdot
    else cleanLoop rooted rest true (c :: out) dotdot
  | [c], false, out, _ =>
    if c = 47 ∨ c = 46 then out else c :: addSlash rooted out
  | c :: d :: rest, false, out, dotdot =>
    if c = 47 then cleanLoop rooted (d :: rest) false out dotdot
    else if c = 46 ∧ d = 47 then cleanLoop rooted (d :: rest) false out dotdot
    else if c = 46 ∧ d = 46 ∧ (rest = [] ∨ rest.head? = some 47) then
      cleanLoop rooted rest false (dotDot rooted out dotdot).1 (dotDot rooted out dotdot).2
    else cleanLoop rooted (d :: rest) true (c :: addSlash rooted out) dotdot

/-- Function path.Clean. -/
def Clean (path : Bytes) : Bytes :=
  if path = [] then [46]
  else
    let rooted : Bool := path.head? = some 47
    let out := if rooted then cleanLoop rooted (path.drop 1) false [47] 1
               else cleanLoop rooted path false [] 0
    if out.length = 0 then [46] else out.reverse

/-! ## Package net -/

/-- Index of the first occurrence of a byte, as bytealg.IndexByteString (none for -1). -/
def indexByte (s : Bytes) (c : UInt8) : Option Nat :=
  match s.indexOf c with
  | i => if i < s.length then some i else none

/-- Index of the last occurrence of a byte, as the function last of package net. -/
def last (s : Bytes) (c : UInt8) : Option Nat :=
  match indexByte s.reverse c with
  | some i => some (s.length - 1 - i)
  | none => none

/-- Function net.SplitHostPort: host and port, or the error text. -/
def SplitHostPort (hostport : Bytes) : Except error (Bytes × Bytes) :=
  match last hostport 58 with
  | none => .error "missing port in address"
  | some i =>
    if hostport.head? = some 91 then
      match indexByte hostport 93 with
      | none => .error "missing ']' in address"
      | some e =>
        if e + 1 = hostport.length then .error "missing port in address"
        else if e + 1 = i then
          if (indexByte (hostport.drop 1) 91).isSome then .error "unexpected '[' in address"
          else if (indexByte (hostport.drop (e + 1)) 93).isSome then
            .error "unexpected ']' in address"
          else .ok ((hostport.take e).drop 1, hostport.drop (i + 1))
        else if (hostport.drop (e + 1)).head? = some 58 then
          .error "too many colons in address"
        else .error "missing port in address"
    else if (indexByte (hostport.take i) 58).isSome then .error "too many colons in address"
    else if (indexByte hostport 91).isSome then .error "unexpected '[' in address"
    else if (indexByte hostport 93).isSome then .error "unexpected ']' in address"
    else .ok (hostport.take i, hostport.drop (i + 1))

/-- The value of a string of decimal digits, none when a byte is not a digit. -/
def decimal : Bytes → Option Nat
  | [] => none
  | s => s.foldl (fun acc c =>
      match acc with
      | none => none
      | some n => if 48 ≤ c.toNat ∧ c.toNat ≤ 57 then some (10 * n + (c.toNat - 48)) else none)
      (some 0)

/-! ## Package net/http: the server side response -/

/-- Type response of net/http: the ResponseWriter the server gives to a handler. -/
structure response where
  req : Request
  handlerHeader : Header
  wroteHeader : Bool
  status : Nat
  /-- The declared Content-Length; none is the -1 of the Go field -/
  contentLength : Option Nat
  written : Nat
  /-- The body bytes handed to the connection -/
  body : Bytes
deriving DecidableEq, Repr

/-- The response the server builds for a request it has read: a new empty header
map, no status yet, contentLength -1. -/
def newResponse (req : Request) : response :=
  { req := req, handlerHeader := [], wroteHeader := false, status := 0,
    contentLength := none, written := 0, body := [] }

/-- Method response.WriteHeader. A second call only logs. A Content-Length that does
not parse is deleted from the handler's map. (The panic of checkWriteHeaderCode for a
code outside 100..999 is not modelled: no caller here passes one.) -/
def response.WriteHeader (lib : Stdlib) (code : Nat) (w : response) : response :=
  if w.wroteHeader then w
  else
    let w := { w with wroteHeader := true, status := code }
    let cl := Header.get w.handlerHeader (bytes "Content-Length")
    if cl ≠ [] then
      match lib.parseLength cl with
      | some v => { w with contentLength := some v }
      | none => { w with handlerHeader := Header.Del w.handlerHeader (bytes "Content-Length") }
    else w

/-- Function bodyAllowedForStatus. -/
def bodyAllowedForStatus (status : Nat) : Bool :=
  if 100 ≤ status ∧ status ≤ 199 then false
  else if status = 204 then false
  else if status = 304 then false
  else true

/-- The part of response.write after the header is written, followed by
chunkWriter.Write, which eats the bytes of a HEAD response. -/
def response.writeBody (data : Bytes) (w : response) : WriteOutcome × response :=
  if data.length = 0 then (.returned 0 none, w)
  else if ¬ bodyAllowedForStatus w.status then
    (.returned 0 (some "http: request method or response status code does not allow body"), w)
  else if w.contentLength.isSome ∧ w.contentLength.getD 0 < w.written + data.length then
    (.returned 0 (some "http: wrote more than the declared Content-Length"),
      { w with written := w.written + data.length })
  else if w.req.Method = bytes "HEAD" then
    (.returned data.length none, { w with written := w.written + data.length })
  else
    (.returned data.length none,
      { w with written := w.written + data.length, body := w.body ++ data })

/-- Method response.Write: without a header yet it first calls WriteHeader(200). -/
def response.Write (lib : Stdlib) (data : Bytes) (w : response) :
    WriteOutcome × response :=
  response.writeBody data (if ¬ w.wroteHeader then response.WriteHeader lib 200 w else w)

/-- The server's response as an implementation of http.ResponseWriter. -/
def responseWriter (lib : Stdlib) : ResponseWriter response where
  Header := fun w => w.handlerHeader
  setHeader := fun h w => { w with handlerHeader := h }
  Write := response.Write lib
  WriteHeader := response.WriteHeader lib

/-- Method response.finishRequest: a handler that wrote nothing gets status 200. -/
def finishRequest (lib : Stdlib) (w : response) : response :=
  if ¬ w.wroteHeader then response.WriteHeader lib 200 w else w

/-- Interface http.Handler, for handlers the server calls with its own response. -/
abbrev Handler := response → Request → HandlerResult response

/-! ## Package net/http: helper handlers -/

/-- Function fmt.Fprintln with one string operand: the string and a newline, in one
Write. -/
def Fprintln {σ : Type} (W : ResponseWriter σ) (w : σ) (s : Bytes) : WriteOutcome × σ :=
  W.Write (s ++ [10]) w

/-- Function http.Error. -/
def Error (lib : Stdlib) (w : response) (err : Bytes) (code : Nat) : response :=
  let W := responseWriter lib
  let w := W.setHeader (Header.Set (W.Header w) (bytes "Content-Type")
    (bytes "text/plain; charset=utf-8")) w
  let w := W.setHeader (Header.Set (W.Header w) (bytes "X-Content-Type-Options")
    (bytes "nosniff")) w
  let w := W.WriteHeader code w
  (Fprintln W w err).2

/-- Function http.NotFound. -/
def NotFound (lib : Stdlib) : Handler :=
  fun w r => { w := Error lib w (bytes "404 page not found") 404, r := r, panic := none }

/-- The replacer htmlEscape of net/http. -/
def htmlEscape : Bytes → Bytes
  | [] => []
  | c :: s =>
    (if c = 38 then bytes "&amp;"
     else if c = 60 then bytes "&lt;"
     else if c = 62 then bytes "&gt;"
     else if c = 34 then bytes "&#34;"
     else if c = 39 then bytes "&#39;"
     else [c]) ++ htmlEscape s

/-- One lower case hexadecimal digit. -/
def hexDigit (n : Nat) : UInt8 :=
  if n < 10 then UInt8.ofNat (48 + n) else UInt8.ofNat (87 + n)

/-- Function hexEscapeNonASCII. -/
def hexEscapeNonASCII : Bytes → Bytes
  | [] => []
  | c :: s =>
    (if 128 ≤ c.toNat then [37, hexDigit (c.toNat / 16), hexDigit (c.toNat % 16)] else [c])
      ++ hexEscapeNonASCII s

/-- Function http.Redirect for status 301, on the target of the given path and query. -/
def Redirect (lib : Stdlib) (w : response) (r : Request) (path query : Bytes) (code : Nat) :
    response :=
  let W := responseWriter lib
  let url := lib.redirectURL path query
  let hadCT : Bool := ((W.Header w).lookup (bytes "Content-Type")).isSome
  let w := W.setHeader (Header.Set (W.Header w) (bytes "Location") (hexEscapeNonASCII url)) w
  let w := if ¬ hadCT ∧ (r.Method = bytes "GET" ∨ r.Method = bytes "HEAD") then
      W.setHeader (Header.Set (W.Header w) (bytes "Content-Type")
        (bytes "text/html; charset=utf-8")) w
    else w
  let w := W.WriteHeader code w
  if ¬ hadCT ∧ r.Method = bytes "GET" then
    (Fprintln W w (bytes "<a href=\"" ++ htmlEscape url ++ bytes "\">"
      ++ bytes "Moved Permanently" ++ bytes "</a>.\n")).2
  else w

/-- Function http.RedirectHandler with status 301. -/
def RedirectHandler (lib : Stdlib) (path query : Bytes) : Handler :=
  fun w r => { w := Redirect lib w r path query 301, r := r, panic := none }

/-- Type globalOptionsHandler, which answers OPTIONS * (the request body it discards
is not tracked). -/
def globalOptionsHandler (lib : Stdlib) : Handler :=
  fun w r =>
    { w := (responseWriter lib).setHeader
        (Header.Set ((responseWriter lib).Header w) (bytes "Content-Length") (bytes "0")) w,
      r := r, panic := none }

/-! ## Package net/http: ServeMux -/

/-- Type muxEntry. -/
structure muxEntry where
  h : Handler
  pattern : Bytes

/-- Type ServeMux: the map m by pattern, the slash-ended entries es from longest to
shortest, and whether a pattern names a host. -/
structure ServeMux where
  m : List (Bytes × muxEntry)
  es : List muxEntry
  hosts : Bool

/-- Function appendSorted: insert before the first entry with a shorter pattern. -/
def appendSorted : List muxEntry → muxEntry → List muxEntry
  | [], e => [e]
  | x :: xs, e =>
    if x.pattern.length < e.pattern.length then e :: x :: xs else x :: appendSorted xs e

/-- Method ServeMux.Handle; its panics are errors (the message for a pattern that is
already registered is given without the pattern). -/
def ServeMux.Handle (mux : ServeMux) (pattern : Bytes) (handler : Handler) :
    Except error ServeMux :=
  if pattern = [] then .error "http: invalid pattern"
  else if (mux.m.lookup pattern).isSome then .error "http: multiple registrations"
  else
    let e : muxEntry := { h := handler, pattern := pattern }
    .ok { m := (pattern, e) :: mux.m,
          es := if pattern.getLast? = some 47 then appendSorted mux.es e else mux.es,
          hosts := if pattern.head? ≠ some 47 then true else mux.hosts }

/-- Method ServeMux.match: an exact pattern first, then the longest slash-ended
pattern that is a prefix of the path. -/
def ServeMux.find (mux : ServeMux) (path : Bytes) : Option muxEntry :=
  match mux.m.lookup path with
  | some v => some v
  | none => mux.es.find? (fun e => e.pattern.isPrefixOf path)

/-- Method ServeMux.handler. -/
def ServeMux.handler (lib : Stdlib) (mux : ServeMux) (host path : Bytes) : Handler × Bytes :=
  let r := if mux.hosts then ServeMux.find mux (host ++ path) else none
  let r := if r.isNone then ServeMux.find mux path else r
  match r with
  | some e => (e.h, e.pattern)
  | none => (NotFound lib, [])

/-- Method ServeMux.shouldRedirectRLocked. -/
def ServeMux.shouldRedirectRLocked (mux : ServeMux) (host path : Bytes) : Bool :=
  if (mux.m.lookup path).isSome ∨ (mux.m.lookup (host ++ path)).isSome then false
  else if path.length = 0 then false
  else if (mux.m.lookup (path ++ [47])).isSome ∨ (mux.m.lookup (host ++ path ++ [47])).isSome then
    path.getLast? ≠ some 47
  else false

/-- Function stripHostPort. -/
def stripHostPort (h : Bytes) : Bytes :=
  if ¬ h.contains 58 then h
  else
    match SplitHostPort h with
    | .ok hp => hp.1
    | .error _ => h

/-- Function cleanPath of net/http. -/
def cleanPath (p : Bytes) : Bytes :=
  if p = [] then [47]
  else
    let p := if p.head? ≠ some 47 then 47 :: p else p
    let np := Clean p
    if p.getLast? = some 47 ∧ np ≠ [47] then
      if p.length = np.length + 1 ∧ np.isPrefixOf p then p else np ++ [47]
    else np

/-- Method ServeMux.Handler: the handler for a request and the pattern it matched. -/
def ServeMux.Handler (lib : Stdlib) (mux : ServeMux) (r : Request) :
    HttpServer.Handler × Bytes :=
  if r.Method = bytes "CONNECT" then
    if ServeMux.shouldRedirectRLocked mux r.URL.Host r.URL.Path then
      (RedirectHandler lib (r.URL.Path ++ [47]) r.URL.RawQuery, r.URL.Path ++ [47])
    else ServeMux.handler lib mux r.Host r.URL.Path
  else
    let host := stripHostPort r.Host
    let path := cleanPath r.URL.Path
    if ServeMux.shouldRedirectRLocked mux host path then
      (RedirectHandler lib (path ++ [47]) r.URL.RawQuery, path ++ [47])
    else if path ≠ r.URL.Path then
      (RedirectHandler lib path r.URL.RawQuery, (ServeMux.handler lib mux host path).2)
    else ServeMux.handler lib mux host r.URL.Path

/-- Method ServeMux.ServeHTTP. -/
def ServeMux.ServeHTTP (lib : Stdlib) (mux : ServeMux) : HttpServer.Handler :=
  fun w r =>
    if r.RequestURI = bytes "*" then
      let W := responseWriter lib
      let w := if 1 < r.ProtoMajor ∨ (r.ProtoMajor = 1 ∧ 1 ≤ r.ProtoMinor) then
          W.setHeader (Header.Set (W.Header w) (bytes "Connection") (bytes "close")) w
        else w
      { w := W.WriteHeader 400 w, r := r, panic := none }
    else (ServeMux.Handler lib mux r).1 w r

/-! ## Package net/http: the server, and the process -/

/-- What the operating system hands to the process at start. -/
structure OS where
  Args : List Bytes
  Environ : List (Bytes × Bytes)
  Files : List (Bytes × Bytes)

/-- What happens to a listener on an address, as far as the run is observed. -/
inductive ListenOutcome where
  /-- The call net.Listen fails (for one, the port is taken) -/
  | bindError (err : error)
  /-- The listener serves these requests, then Accept fails and Serve returns -/
  | serveError (reqs : List Request) (err : error)
  /-- The listener has served these requests and waits in Accept -/
  | serving (reqs : List Request)

/-- The requests a listener gets to serve. -/
def ListenOutcome.requests : ListenOutcome → List Request
  | .bindError _ => []
  | .serveError reqs _ => reqs
  | .serving reqs => reqs

/-- The network around the process: the outcome of listening on an address. -/
abbrev Network := Bytes → ListenOutcome

/-- The steps of a run that the outside can see. -/
inductive Event where
  /-- A call of http.HandleFunc with this pattern -/
  | HandleFunc (pattern : Bytes)
  /-- A call of http.ListenAndServe with this address; nilHandler for a nil handler -/
  | ListenAndServe (addr : Bytes) (nilHandler : Bool)
  /-- A call of net.Listen on tcp with this address, and whether it bound -/
  | Listen (addr : Bytes) (bound : Bool)
  /-- A request was read and answered while DefaultServeMux held these patterns -/
  | served (patterns : List Bytes) (req : Request) (resp : response)
deriving DecidableEq, Repr

/-- The state of the process: the package variable http.DefaultServeMux, the events
so far, and the exit status once the process has ended. -/
structure Process where
  DefaultServeMux : ServeMux
  trace : List Event
  exit : Option Nat

/-- The process when main is entered: DefaultServeMux is an empty ServeMux. -/
def Process.start : Process :=
  { DefaultServeMux := { m := [], es := [], hosts := false }, trace := [], exit := none }

/-- Function http.HandleFunc: DefaultServeMux.HandleFunc, which is Handle. -/
def HandleFunc (pattern : Bytes) (handler : Handler) (p : Process) : Except error Process :=
  match ServeMux.Handle p.DefaultServeMux pattern handler with
  | .error e => .error e
  | .ok mux =>
    .ok { p with DefaultServeMux := mux, trace := p.trace ++ [Event.HandleFunc pattern] }

/-- Method serverHandler.ServeHTTP: a nil Server.Handler means DefaultServeMux, and
OPTIONS * goes to globalOptionsHandler. -/
def serverHandler (lib : Stdlib) (srvHandler : Option Handler) (defaultMux : ServeMux) :
    Handler :=
  fun rw req =>
    let handler := match srvHandler with
      | some h => h
      | none => ServeMux.ServeHTTP lib defaultMux
    let handler := if req.RequestURI = bytes "*" ∧ req.Method = bytes "OPTIONS" then
        globalOptionsHandler lib
      else handler
    handler rw req

/-- Method Request.ProtoAtLeast. -/
def Request.ProtoAtLeast (r : Request) (major minor : Nat) : Bool :=
  major < r.ProtoMajor ∨ (r.ProtoMajor = major ∧ minor ≤ r.ProtoMinor)

/-- Function http1ServerSupportsRequest. -/
def http1ServerSupportsRequest (req : Request) : Bool :=
  if req.ProtoMajor = 1 then true
  else if req.ProtoMajor = 2 ∧ req.ProtoMinor = 0 ∧ req.Method = bytes "PRI"
      ∧ req.RequestURI = bytes "*" then true
  else false

/-- Method Request.isH2Upgrade. -/
def Request.isH2Upgrade (r : Request) : Bool :=
  r.Method = bytes "PRI" ∧ r.Header.length = 0 ∧ r.URL.Path = bytes "*"
    ∧ r.ProtoMajor = 2 ∧ r.ProtoMinor = 0

/-- Type statusError: the status, with its text, and the message. -/
structure statusError where
  code : Nat
  status : String
  text : String
deriving DecidableEq, Repr

/-- Function badRequestError. -/
def badRequestError (text : String) : statusError :=
  { code := 400, status := "400 Bad Request", text := text }

/-- The checks of conn.readRequest on a request that readRequest has parsed: the
error it returns, or none. (Go walks the header map in no fixed order, so with a bad
name and a bad value in one request either message may come; here the name comes
first.) -/
def checkRequest (lib : Stdlib) (req : Request) : Option statusError :=
  if ¬ http1ServerSupportsRequest req then
    some { code := 505, status := "505 HTTP Version Not Supported",
           text := "unsupported protocol version" }
  else if req.ProtoAtLeast 1 1 ∧ (req.Header.lookup (bytes "Host")).getD [] = []
      ∧ ¬ req.isH2Upgrade ∧ req.Method ≠ bytes "CONNECT" then
    some (badRequestError "missing required Host header")
  else if 1 < ((req.Header.lookup (bytes "Host")).getD []).length then
    some (badRequestError "too many Host headers")
  else if ((req.Header.lookup (bytes "Host")).getD []).any (fun h => ¬ lib.validHostHeader h)
    then some (badRequestError "malformed Host header")
  else if req.Header.any (fun kv => ¬ lib.validHeaderFieldName kv.1) then
    some (badRequestError "invalid header name")
  else if req.Header.any (fun kv => kv.2.any (fun v => ¬ lib.validHeaderFieldValue v)) then
    some (badRequestError "invalid header value")
  else none

/-- What conn.serve writes to the connection for a request that conn.readRequest
refuses with a statusError: the status, two headers, and the status and message as
the body. No handler is called. -/
def errorResponse (req : Request) (e : statusError) : response :=
  { req := req,
    handlerHeader := [(bytes "Content-Type", [bytes "text/plain; charset=utf-8"]),
                      (bytes "Connection", [bytes "close"])],
    wroteHeader := true, status := e.code, contentLength := none, written := 0,
    body := bytes (e.status ++ ": " ++ e.text) }

/-- The lower case form of an ASCII letter. -/
def lower (b : UInt8) : UInt8 :=
  if 65 ≤ b.toNat ∧ b.toNat ≤ 90 then b + 32 else b

/-- Function isTokenBoundary. -/
def isTokenBoundary (b : UInt8) : Bool :=
  b = 32 ∨ b = 44 ∨ b = 9

/-- The loop of hasToken over the start positions; prev is the byte before the
position. A position counts when it starts and ends on a token boundary and the bytes
there equal the token up to ASCII case (strings.EqualFold, for the ASCII token of the
one caller). -/
def hasTokenFrom (token : Bytes) : Option UInt8 → Bytes → Bool
  | _, [] => false
  | prev, c :: rest =>
    (decide (token.length ≤ (c :: rest).length)
      && (match prev with
          | none => true
          | some b => isTokenBoundary b)
      && (match (c :: rest).drop token.length with
          | [] => true
          | e :: _ => isTokenBoundary e)
      && decide (((c :: rest).take token.length).map lower = token.map lower))
    || hasTokenFrom token (some c) rest

/-- Function hasToken of net/http. -/
def hasToken (v token : Bytes) : Bool :=
  if v.length < token.length ∨ token = [] then false
  else if v = token then true
  else hasTokenFrom token none v

/-- Method Request.expectsContinue. -/
def Request.expectsContinue (r : Request) : Bool :=
  hasToken (Header.get r.Header (bytes "Expect")) (bytes "100-continue")

/-- Method response.sendExpectationFailed. -/
def sendExpectationFailed (lib : Stdlib) (w : response) : response :=
  let W := responseWriter lib
  let w := W.setHeader (Header.Set (W.Header w) (bytes "Connection") (bytes "close")) w
  let w := W.WriteHeader 417 w
  if ¬ w.wroteHeader then response.WriteHeader lib 200 w else w

/-- What conn.serve does with a request before any handler runs. -/
inductive Read where
  /-- The request is answered at once, without a handler -/
  | reject (resp : response)
  /-- The request goes to the handler with this new response -/
  | dispatch (w : response)

/-- The request as a handler gets it: readRequest sets Host to the host of the
target or else to the Host header, and conn.readRequest takes the Host header out of
the header map. -/
def handed (req : Request) : Request :=
  { req with
    Host := if req.URL.Host ≠ [] then req.URL.Host else Header.get req.Header (bytes "Host"),
    Header := Header.Del req.Header (bytes "Host") }

/-- The first part of conn.serve for a request that readRequest has parsed:
conn.readRequest (its checks, the Host header taken out of the header map, the new
response), then the Expect header, which must hold the token 100-continue or be
absent. (The interim 100 Continue, sent when a handler reads the body, is not
tracked.) -/
def connRead (lib : Stdlib) (req : Request) : Read :=
  match checkRequest lib req with
  | some e => .reject (errorResponse req e)
  | none =>
    let w := newResponse (handed req)
    if w.req.expectsContinue then .dispatch w
    else if Header.get w.req.Header (bytes "Expect") ≠ [] then
      .reject (sendExpectationFailed lib w)
    else .dispatch w

/-- The end of conn.serve for one request: after a handler that returned,
finishRequest; after a handler that panicked, the deferred recover closes the
connection and the response stays as the handler left it. -/
def finishHandler (lib : Stdlib) (out : HandlerResult response) : response :=
  match out.panic with
  | some _ => out.w
  | none => finishRequest lib out.w

/-- The answer of the server to one request that readRequest has parsed: the work of
conn.serve before the handler, the handler, and the work after it. -/
def answer (lib : Stdlib) (srvHandler : Option Handler) (defaultMux : ServeMux)
    (req : Request) : response :=
  match connRead lib req with
  | .reject resp => resp
  | .dispatch w => finishHandler lib (serverHandler lib srvHandler defaultMux w w.req)

/-- One turn of the loop of Server.Serve with the work of conn.serve for one request. -/
def serveOne (lib : Stdlib) (srvHandler : Option Handler) (p : Process) (req : Request) :
    Process :=
  { p with trace := p.trace ++
      [Event.served (p.DefaultServeMux.m.map (fun kv => kv.1)) req
        (answer lib srvHandler p.DefaultServeMux req)] }

/-- Method Server.Serve over the requests that arrive. -/
def Serve (lib : Stdlib) (srvHandler : Option Handler) (reqs : List Request) (p : Process) :
    Process :=
  reqs.foldl (serveOne lib srvHandler) p

/-- Function http.ListenAndServe: the error it returns, or none while it has not
returned, and the process after it. An empty address means ":http". -/
def ListenAndServe (net : Network) (lib : Stdlib) (addr : Bytes) (handler : Option Handler)
    (p : Process) : Option error × Process :=
  let p := { p with trace := p.trace ++ [Event.ListenAndServe addr handler.isNone] }
  let addr := if addr = [] then bytes ":http" else addr
  match net addr with
  | .bindError err => (some err, { p with trace := p.trace ++ [Event.Listen addr false] })
  | .serveError reqs err =>
    (some err, Serve lib handler reqs { p with trace := p.trace ++ [Event.Listen addr true] })
  | .serving reqs =>
    (none, Serve lib handler reqs { p with trace := p.trace ++ [Event.Listen addr true] })

/-- Function main of http-server/main.go, run by the Go runtime: a panic ends the
process with status 2, the return of main ends it with status 0, and while
ListenAndServe has not returned the process goes on. The value ListenAndServe
returns is dropped. -/
def main (_os : OS) (net : Network) (lib : Stdlib) : Process :=
  match HandleFunc (bytes "/") (rootHandler lib (responseWriter lib)) Process.start with
  | .error _ => { Process.start with exit := some 2 }
  | .ok p =>
    match ListenAndServe net lib (bytes ":25252") none p with
    | (none, p) => p
    | (some _, p) => { p with exit := some 0 }

/-- The responses a process has sent, in order. -/
def responsesOf (p : Process) : List response :=
  p.trace.filterMap (fun e => match e with
    | .served _ _ resp => some resp
    | _ => none)

/-- The addresses a process has passed to ListenAndServe, in order. -/
def listenAddrs (p : Process) : List Bytes :=
  p.trace.filterMap (fun e => match e with
    | .ListenAndServe addr _ => some addr
    | _ => none)

/-- The value of DefaultServeMux after the one registration that main makes (see
HandleFunc_start below). -/
def rootMux (lib : Stdlib) : ServeMux :=
  { m := [(bytes "/", { h := rootHandler lib (responseWriter lib), pattern := bytes "/" })],
    es := [{ h := rootHandler lib (responseWriter lib), pattern := bytes "/" }],
    hosts := false }

/-- The events with which every run of main starts. -/
def mainEvents (bound : Bool) : List Event :=
  [Event.HandleFunc (bytes "/"), Event.ListenAndServe (bytes ":25252") true,
   Event.Listen (bytes ":25252") bound]

/-! ## Requests handled at the same time -/

/-- One connection in its own goroutine (go c.serve), with one request: how far it
is (0 accepted, 1 request read and response built, 2 handler returned, 3 done) and its
response, once there is one. -/
structure Conn where
  req : Request
  pc : Nat
  w : Option response

/-- A connection that Accept has just returned. -/
def accept (req : Request) : Conn :=
  { req := req, pc := 0, w := none }

/-- A server that serves its connections at the same time: what the goroutines
share (the Server.Handler and the package variable DefaultServeMux), and the
connections. -/
structure Server where
  srvHandler : Option Handler
  DefaultServeMux : ServeMux
  conns : List Conn

/-- The server when Serve has accepted these requests, one connection each, with the
ServeMux of the process. -/
def Server.start (p : Process) (srvHandler : Option Handler) (reqs : List Request) :
    Server :=
  { srvHandler := srvHandler, DefaultServeMux := p.DefaultServeMux,
    conns := reqs.map accept }

/-- The table validHostByte of package httpguts. -/
def validHostByte (b : UInt8) : Bool :=
  (48 ≤ b.toNat ∧ b.toNat ≤ 57) ∨ (97 ≤ b.toNat ∧ b.toNat ≤ 122)
    ∨ (65 ≤ b.toNat ∧ b.toNat ≤ 90)
    ∨ b.toNat ∈ [33, 36, 37, 38, 40, 41, 42, 43, 44, 45, 46, 58, 59, 61, 91, 39, 93, 95, 126]

/-- The table isTokenTable of package httpguts. -/
def isTokenByte (b : UInt8) : Bool :=
  (48 ≤ b.toNat ∧ b.toNat ≤ 57) ∨ (97 ≤ b.toNat ∧ b.toNat ≤ 122)
    ∨ (65 ≤ b.toNat ∧ b.toNat ≤ 90)
    ∨ b.toNat ∈ [33, 35, 36, 37, 38, 39, 42, 43, 45, 46, 94, 95, 96, 124, 126]

/-- One choice of the library parameters: no verbs, decimal lengths, a redirect target
without escapes, the Content-Type that DetectContentType gives for plain text, and the
header checks of package httpguts. -/
def plainLib : Stdlib :=
  { verbs := fun s => s
    parseLength := decimal
    redirectURL := fun path query => if query = [] then path else path ++ [63] ++ query
    detectContentType := fun _ => bytes "text/plain; charset=utf-8"
    validHostHeader := fun h => h.all validHostByte
    validHeaderFieldName := fun k => k ≠ [] ∧ k.all isTokenByte
    validHeaderFieldValue := fun v => v.all (fun b => (32 ≤ b.toNat ∧ b.toNat ≠ 127) ∨ b = 9) }

/-- A request as readRequest parses it from a request line with this method and
target, version HTTP/1.1, and the header Host: localhost:25252. -/
def request (method path : String) : Request :=
  { Method := bytes method, URL := { Host := [], Path := bytes path, RawQuery := [] },
    ProtoMajor := 1, ProtoMinor := 1,
    Header := [(bytes "Host", [bytes "localhost:25252"])], Body := [],
    Host := [], RequestURI := bytes path }

/-- A process environment without arguments, variables or files. -/
def emptyOS : OS := { Args := [], Environ := [], Files := [] }


/-! ## Theorems -/

theorem responseText_bytes :
    responseText =
      [115, 105, 109, 112, 108, 121, 32, 112, 114, 111, 120, 121, 32,
       115, 101, 114, 118, 101, 114] := by
  decide

theorem doPrintf_responseText (lib : Stdlib) :
    doPrintf lib (bytes "simply proxy server") = responseText := by
  rw [responseText_bytes]
  have h : bytes "simply proxy server" = responseText := rfl
  rw [h, responseText_bytes]
  simp [doPrintf]

/-! ### The root handler -/

theorem rootHandler_eq {σ : Type} (lib : Stdlib) (W : ResponseWriter σ) (w : σ) (r : Request) :
    rootHandler lib W w r
      = { w := (W.Write responseText w).2, r := r,
          panic := match (W.Write responseText w).1 with
            | .returned _ _ => none
            | .panicked v => some v } := by
  simp only [rootHandler, Fprintf, doPrintf_responseText]

theorem rootHandler_recording {σ : Type} (lib : Stdlib) (W : ResponseWriter σ) (w : σ)
    (log : List Call) (r : Request) :
    (rootHandler lib (recording W) (w, log) r).1
      = ((W.Write responseText w).2, log ++ [Call.Write responseText]) := by
  rw [rootHandler_eq]
  rfl

theorem writtenBytes_single (p : Bytes) : writtenBytes [Call.Write p] = p := by
  simp [writtenBytes]

/-- C1: for every request and every response writer that starts empty, the bytes the
root handler writes to the writer are exactly the 19 bytes of "simply proxy server",
with nothing before them and no newline after them, whatever the request is. The
bytes written are read off the log of a recorded writer that starts with an empty
log, and off the body of a keeping writer that starts with an empty body. -/
theorem rootHandler_writes_text {σ : Type} (lib : Stdlib) (W : ResponseWriter σ) (w : σ)
    (code : Option Nat) (hdr : Header) (r : Request) :
    writtenBytes (rootHandler lib (recording W) (w, []) r).1.2 = bytes "simply proxy server"
    ∧ (rootHandler lib recorderWriter { Code := code, HeaderMap := hdr, Body := [] } r).1.Body
        = bytes "simply proxy server"
    ∧ (bytes "simply proxy server").length = 19
    ∧ (bytes "simply proxy server").getLast? = some 114 := by
  refine ⟨?_, ?_, by decide, by decide⟩
  · rw [rootHandler_recording]
    exact writtenBytes_single _
  · rw [rootHandler_eq]
    rfl

theorem WriteHeader_of_wrote (lib : Stdlib) (code : Nat) (w : response)
    (h : w.wroteHeader = true) : response.WriteHeader lib code w = w := by
  simp [response.WriteHeader, h]

theorem WriteHeader_status (lib : Stdlib) (code : Nat) (w : response)
    (h : w.wroteHeader = false) :
    (response.WriteHeader lib code w).status = code
    ∧ (response.WriteHeader lib code w).wroteHeader = true
    ∧ (response.WriteHeader lib code w).req = w.req
    ∧ (response.WriteHeader lib code w).body = w.body := by
  unfold response.WriteHeader
  rw [if_neg (by simp [h])]
  by_cases hcl : Header.get w.handlerHeader (bytes "Content-Length") = []
  · simp [hcl]
  · cases hp : lib.parseLength (Header.get w.handlerHeader (bytes "Content-Length")) <;>
      simp [hcl, hp]

theorem WriteHeader_header (lib : Stdlib) (code : Nat) (w : response) :
    (response.WriteHeader lib code w).handlerHeader
      = if w.wroteHeader = false
            ∧ Header.get w.handlerHeader (bytes "Content-Length") ≠ []
            ∧ lib.parseLength (Header.get w.handlerHeader (bytes "Content-Length")) = none
        then Header.Del w.handlerHeader (bytes "Content-Length")
        else w.handlerHeader := by
  unfold response.WriteHeader
  by_cases h : w.wroteHeader = true
  · simp [h]
  · have h' : w.wroteHeader = false := by simpa using h
    rw [if_neg h]
    by_cases hcl : Header.get w.handlerHeader (bytes "Content-Length") = []
    · simp [hcl]
    · cases hp : lib.parseLength (Header.get w.handlerHeader (bytes "Content-Length")) <;>
        simp [hcl, hp, h']

theorem writeBody_keeps (data : Bytes) (w : response) :
    (response.writeBody data w).2.status = w.status
    ∧ (response.writeBody data w).2.wroteHeader = w.wroteHeader
    ∧ (response.writeBody data w).2.req = w.req
    ∧ (response.writeBody data w).2.handlerHeader = w.handlerHeader := by
  unfold response.writeBody
  split_ifs <;> simp

theorem writeBody_returns (data : Bytes) (w : response) :
    ∃ n err, (response.writeBody data w).1 = WriteOutcome.returned n err := by
  unfold response.writeBody
  split_ifs <;> exact ⟨_, _, rfl⟩

theorem Write_status_fresh (lib : Stdlib) (data : Bytes) (w : response)
    (h : w.wroteHeader = false) :
    (response.Write lib data w).2.status = 200
    ∧ (response.Write lib data w).2.wroteHeader = true := by
  have h1 := WriteHeader_status lib 200 w h
  have h2 := writeBody_keeps data (response.WriteHeader lib 200 w)
  unfold response.Write
  rw [if_pos (by simp [h]), h2.1, h2.2.1, h1.1, h1.2.1]
  exact ⟨rfl, rfl⟩

theorem Write_header (lib : Stdlib) (data : Bytes) (w : response) :
    (response.Write lib data w).2.handlerHeader
      = if w.wroteHeader = false
            ∧ Header.get w.handlerHeader (bytes "Content-Length") ≠ []
            ∧ lib.parseLength (Header.get w.handlerHeader (bytes "Content-Length")) = none
        then Header.Del w.handlerHeader (bytes "Content-Length")
        else w.handlerHeader := by
  unfold response.Write
  rw [(writeBody_keeps _ _).2.2.2]
  by_cases h : w.wroteHeader = true
  · simp [h]
  · have h' : w.wroteHeader = false := by simpa using h
    rw [if_pos h, WriteHeader_header]

/-- C6: the root handler never sets a status itself (its only call on the writer is
one Write, no WriteHeader), so on a response of the server whose header is not yet
written the status is the one the first Write fixes, 200. -/
theorem rootHandler_implicit_status (lib : Stdlib) (w : response) (r : Request)
    (h : w.wroteHeader = false) :
    (rootHandler lib (recording (responseWriter lib)) (w, []) r).1.2
        = [Call.Write (bytes "simply proxy server")]
    ∧ (rootHandler lib (responseWriter lib) w r).1.status = 200
    ∧ (rootHandler lib (responseWriter lib) w r).1.wroteHeader = true := by
  refine ⟨?_, ?_, ?_⟩
  · rw [rootHandler_recording]
    rfl
  · rw [rootHandler_eq]
    exact (Write_status_fresh lib responseText w h).1
  · rw [rootHandler_eq]
    exact (Write_status_fresh lib responseText w h).2

theorem rootHandler_implicit_status_witness :
    (newResponse (request "GET" "/")).wroteHeader = false
    ∧ (rootHandler plainLib (recording (responseWriter plainLib))
        (newResponse (request "GET" "/"), []) (request "GET" "/")).1.2
        = [Call.Write (bytes "simply proxy server")]
    ∧ (rootHandler plainLib (responseWriter plainLib) (newResponse (request "GET" "/"))
        (request "GET" "/")).1.status = 200
    ∧ (rootHandler plainLib (responseWriter plainLib) (newResponse (request "GET" "/"))
        (request "GET" "/")).1.wroteHeader = true :=
  ⟨rfl, rootHandler_implicit_status plainLib (newResponse (request "GET" "/"))
    (request "GET" "/") rfl⟩

/-- C7, as the code has it: the root handler itself does nothing but one Write. For
every writer, every state of it and every request: the request comes back as it was
given, the result does not depend on the request, the writer ends in the state one
Write of the body leaves it in, and the log of a recorded writer gains that one Write
and no store into the header map and no WriteHeader. The header map after the handler
is what the writer's own Write makes of the map it was given. On the response the
server builds for a request it is unchanged. On a response of the server in any other
state it is unchanged too, except that a Content-Length which does not parse is
deleted when the header was not yet written. On the recorder of httptest the first
Write stores the sniffed Content-Type when the map has neither a Content-Type nor a
Transfer-Encoding, and leaves the map unchanged otherwise. -/
theorem rootHandler_frame {σ : Type} (lib : Stdlib) (W : ResponseWriter σ) (w : σ)
    (log : List Call) (r r' q : Request) (s : response) (rw : ResponseRecorder) :
    (rootHandler lib W w r).2 = r
    ∧ (rootHandler lib W w r).1 = (rootHandler lib W w r').1
    ∧ (rootHandler lib W w r).1 = (W.Write (bytes "simply proxy server") w).2
    ∧ (rootHandler lib (recording W) (w, log) r).1.2
        = log ++ [Call.Write (bytes "simply proxy server")]
    ∧ (rootHandler lib (responseWriter lib) (newResponse q) r).1.handlerHeader
        = (newResponse q).handlerHeader
    ∧ (rootHandler lib (responseWriter lib) s r).1.handlerHeader
        = (if s.wroteHeader = false
              ∧ Header.get s.handlerHeader (bytes "Content-Length") ≠ []
              ∧ lib.parseLength (Header.get s.handlerHeader (bytes "Content-Length")) = none
           then Header.Del s.handlerHeader (bytes "Content-Length")
           else s.handlerHeader)
    ∧ (rootHandler lib (httptestWriter lib) rw r).1.HeaderMap
        = (if rw.wroteHeader = false
              ∧ rw.HeaderMap.lookup (bytes "Content-Type") = none
              ∧ Header.get rw.HeaderMap (bytes "Transfer-Encoding") = []
           then Header.Set rw.HeaderMap (bytes "Content-Type")
                  (lib.detectContentType (bytes "simply proxy server"))
           else rw.HeaderMap)
    ∧ (rootHandler lib (httptestWriter lib) rw r).1.Body
        = rw.Body ++ bytes "simply proxy server" := by
  refine ⟨?_, ?_, ?_, ?_, ?_, ?_, ?_, ?_⟩
  · rw [rootHandler_eq]
  · rw [rootHandler_eq, rootHandler_eq]
  · rw [rootHandler_eq]
    rfl
  · rw [rootHandler_recording]
    rfl
  · rw [rootHandler_eq]
    show (response.Write lib responseText (newResponse q)).2.handlerHeader = _
    rw [Write_header]
    simp [newResponse, Header.get]
  · rw [rootHandler_eq]
    exact Write_header lib responseText s
  · rw [rootHandler_eq]
    show ({ (ResponseRecorder.writeHeader lib responseText rw) with
        Body := (ResponseRecorder.writeHeader lib responseText rw).Body ++ responseText }
        : ResponseRecorder).HeaderMap = _
    show (ResponseRecorder.writeHeader lib responseText rw).HeaderMap = _
    unfold ResponseRecorder.writeHeader ResponseRecorder.WriteHeader
    by_cases hw : rw.wroteHeader = true
    · simp [hw]
    · have hw' : rw.wroteHeader = false := by simpa using hw
      by_cases hc : rw.HeaderMap.lookup (bytes "Content-Type") = none
      · by_cases ht : Header.get rw.HeaderMap (bytes "Transfer-Encoding") = []
        · simp [hw', hc, ht]
          rfl
        · simp [hw', hc, ht]
      · have hc' : (rw.HeaderMap.lookup (bytes "Content-Type")).isSome = true := by
          cases h : rw.HeaderMap.lookup (bytes "Content-Type") with
          | none => exact absurd h hc
          | some v => rfl
        simp [hw', hc, hc']
  · rw [rootHandler_eq]
    show (ResponseRecorder.writeHeader lib responseText rw).Body ++ responseText = _
    have hb : (ResponseRecorder.writeHeader lib responseText rw).Body = rw.Body := by
      unfold ResponseRecorder.writeHeader ResponseRecorder.WriteHeader
      by_cases hw : rw.wroteHeader = true
      · simp [hw]
      · have hw' : rw.wroteHeader = false := by simpa using hw
        simp only [hw', Bool.false_eq_true, if_false]
        split_ifs <;> rfl
    rw [hb]
    rfl

/-- C7 fails as stated: there are writer states after which the header map is not the
one the handler was given. A response of the server whose header is not yet written
and whose map holds the Content-Length "abc" loses that entry, and a new recorder of
httptest, whose map is empty, gains a Content-Type. -/
theorem header_map_not_always_kept :
    (rootHandler plainLib (responseWriter plainLib)
        { newResponse (request "GET" "/") with
          handlerHeader := [(bytes "Content-Length", [bytes "abc"])] }
        (request "GET" "/")).1.handlerHeader = []
    ∧ ([] : Header) ≠ [(bytes "Content-Length", [bytes "abc"])]
    ∧ (rootHandler plainLib (httptestWriter plainLib) NewRecorder
        (request "GET" "/")).1.HeaderMap
        = [(bytes "Content-Type", [bytes "text/plain; charset=utf-8"])]
    ∧ [(bytes "Content-Type", [bytes "text/plain; charset=utf-8"])] ≠ NewRecorder.HeaderMap := by
  refine ⟨by decide, by decide, by decide, by decide⟩

theorem backtrack_rooted (pre : Bytes) (h : 1 < (pre ++ [(47 : UInt8)]).length) :
    ∃ pre', backtrack 1 (pre ++ [47]) = pre' ++ [47] := by
  induction pre with
  | nil => simp at h
  | cons c t ih =>
    simp only [List.cons_append, backtrack]
    split_ifs with hc
    · exact ih hc.1
    · exact ⟨t, rfl⟩

theorem dotDot_rooted (pre : Bytes) :
    (∃ pre', (dotDot true (pre ++ [47]) 1).1 = pre' ++ [47])
    ∧ (dotDot true (pre ++ [47]) 1).2 = 1 := by
  by_cases h : 1 < (pre ++ [(47 : UInt8)]).length
  · have e : dotDot true (pre ++ [47]) 1 = (backtrack 1 (pre ++ [47]), 1) := by
      unfold dotDot
      rw [if_pos h]
    rw [e]
    exact ⟨backtrack_rooted pre h, rfl⟩
  · have e : dotDot true (pre ++ [47]) 1 = (pre ++ [47], 1) := by
      unfold dotDot
      rw [if_neg h, if_neg (by simp)]
    rw [e]
    exact ⟨⟨pre, rfl⟩, rfl⟩

theorem addSlash_rooted (pre : Bytes) : ∃ pre', addSlash true (pre ++ [47]) = pre' ++ [47] := by
  unfold addSlash
  split_ifs
  · exact ⟨47 :: pre, rfl⟩
  · exact ⟨pre, rfl⟩

theorem cleanLoop_rooted (rest : Bytes) (inElem : Bool) (out : Bytes) (dotdot : Nat) :
    (∃ pre, out = pre ++ [47]) → dotdot = 1 →
    ∃ pre', cleanLoop true rest inElem out dotdot = pre' ++ [47] := by
  induction rest, inElem, out, dotdot using cleanLoop.induct true with
  | case1 m out dd => intro h _; simpa [cleanLoop] using h
  | case2 rest out dd ih =>
    intro h hd
    simpa [cleanLoop] using ih h hd
  | case3 c rest out dd hc ih =>
    intro h hd
    obtain ⟨pre, rfl⟩ := h
    simpa [cleanLoop, hc] using ih ⟨c :: pre, rfl⟩ hd
  | case4 c out dd hc =>
    intro h _
    simpa [cleanLoop, hc] using h
  | case5 c out dd hc =>
    intro h _
    obtain ⟨pre, rfl⟩ := h
    obtain ⟨p2, hp2⟩ := addSlash_rooted pre
    simp only [cleanLoop, hc, if_false, hp2]
    exact ⟨c :: p2, rfl⟩
  | case6 d rest out dd ih =>
    intro h hd
    simpa [cleanLoop] using ih h hd
  | case7 c d rest out dd hc hcd ih =>
    intro h hd
    simpa [cleanLoop, hc, hcd] using ih h hd
  | case8 c d rest out dd hc hcd hdd ih =>
    intro h hd
    obtain ⟨pre, rfl⟩ := h
    subst hd
    have := dotDot_rooted pre
    rw [cleanLoop, if_neg hc, if_neg hcd, if_pos hdd]
    exact ih this.1 this.2
  | case9 c d rest out dd hc hcd hdd ih =>
    intro h hd
    obtain ⟨pre, rfl⟩ := h
    obtain ⟨p2, hp2⟩ := addSlash_rooted pre
    rw [cleanLoop, if_neg hc, if_neg hcd, if_neg hdd]
    exact ih ⟨c :: p2, by rw [hp2]; rfl⟩ hd

theorem Clean_rooted (t : Bytes) : ∃ s, Clean (47 :: t) = 47 :: s := by
  obtain ⟨pre, hpre⟩ := cleanLoop_rooted t false [47] 1 ⟨[], rfl⟩ rfl
  unfold Clean
  simp only [List.head?_cons, List.drop_succ_cons, List.drop_zero, decide_True, if_true, hpre]
  simp

theorem cleanPath_head (p : Bytes) : ∃ s, cleanPath p = 47 :: s := by
  unfold cleanPath
  by_cases hp : p = []
  · exact ⟨[], by simp [hp]⟩
  · rw [if_neg hp]
    have ht : ∃ t, (if p.head? ≠ some 47 then 47 :: p else p) = 47 :: t := by
      by_cases h : p.head? = some 47
      · cases p with
        | nil => exact absurd rfl hp
        | cons c t =>
          simp only [List.head?_cons, Option.some.injEq] at h
          subst h
          exact ⟨t, by simp⟩
      · exact ⟨p, by simp [h]⟩
    obtain ⟨t, ht⟩ := ht
    obtain ⟨s, hs⟩ := Clean_rooted t
    simp only [ht, hs]
    split_ifs
    · exact ⟨t, rfl⟩
    · exact ⟨s ++ [47], by simp⟩
    · exact ⟨s, rfl⟩

theorem Clean_examples :
    Clean (bytes "") = bytes "."
    ∧ Clean (bytes "abc//def//ghi") = bytes "abc/def/ghi"
    ∧ Clean (bytes "/./abc/def/") = bytes "/abc/def"
    ∧ Clean (bytes "/abc/def/../../..") = bytes "/"
    ∧ Clean (bytes "abc/def/../../../ghi/jkl/../../../mno") = bytes "../../mno"
    ∧ Clean (bytes "/..a/.b/...") = bytes "/..a/.b/..." := by
  decide

theorem cleanPath_examples :
    cleanPath (bytes "") = bytes "/"
    ∧ cleanPath (bytes "/") = bytes "/"
    ∧ cleanPath (bytes "/anything/else") = bytes "/anything/else"
    ∧ cleanPath (bytes "/anything/else/") = bytes "/anything/else/"
    ∧ cleanPath (bytes "//anything/else") = bytes "/anything/else"
    ∧ cleanPath (bytes "/a/../b/") = bytes "/b/"
    ∧ cleanPath (bytes "a/./b") = bytes "/a/b" := by
  decide

theorem cleanPath_fixed_head (p : Bytes) (h : cleanPath p = p) : p.head? = some 47 := by
  obtain ⟨s, hs⟩ := cleanPath_head p
  rw [← h, hs]
  rfl
/-! ### The process -/

theorem HandleFunc_start (lib : Stdlib) :
    HandleFunc (bytes "/") (rootHandler lib (responseWriter lib)) Process.start
      = .ok { DefaultServeMux := rootMux lib, trace := [Event.HandleFunc (bytes "/")],
              exit := none } := by
  rfl

theorem Serve_eq (lib : Stdlib) (h : Option Handler) (reqs : List Request) (p : Process) :
    Serve lib h reqs p
      = { p with trace := p.trace ++ reqs.map (fun req =>
            Event.served (p.DefaultServeMux.m.map (fun kv => kv.1)) req
              (answer lib h p.DefaultServeMux req)) } := by
  induction reqs generalizing p with
  | nil => simp [Serve]
  | cons r rs ih =>
    have e : Serve lib h (r :: rs) p = Serve lib h rs (serveOne lib h p r) := rfl
    rw [e, ih]
    simp [serveOne]

theorem main_eq (os : OS) (net : Network) (lib : Stdlib) :
    main os net lib =
      match net (bytes ":25252") with
      | .bindError _ =>
        { DefaultServeMux := rootMux lib, trace := mainEvents false, exit := some 0 }
      | .serveError reqs _ =>
        { DefaultServeMux := rootMux lib,
          trace := mainEvents true ++ reqs.map (fun req =>
            Event.served [bytes "/"] req (answer lib none (rootMux lib) req)),
          exit := some 0 }
      | .serving reqs =>
        { DefaultServeMux := rootMux lib,
          trace := mainEvents true ++ reqs.map (fun req =>
            Event.served [bytes "/"] req (answer lib none (rootMux lib) req)),
          exit := none } := by
  unfold main
  rw [HandleFunc_start]
  simp only [ListenAndServe]
  have ha : (if bytes ":25252" = [] then bytes ":http" else bytes ":25252") = bytes ":25252" := by
    decide
  rw [ha]
  cases hn : net (bytes ":25252") with
  | bindError err => rfl
  | serveError reqs err =>
    simp only [Serve_eq]
    rfl
  | serving reqs =>
    simp only [Serve_eq]
    rfl

theorem filterMap_served_addrs (pats : List Bytes) (f : Request → response)
    (reqs : List Request) :
    (reqs.map (fun req => Event.served pats req (f req))).filterMap (fun e => match e with
      | .ListenAndServe addr _ => some addr
      | _ => none) = [] := by
  induction reqs with
  | nil => rfl
  | cons r rs ih => simp [List.filterMap_cons]

theorem filterMap_served_responses (pats : List Bytes) (f : Request → response)
    (reqs : List Request) :
    (reqs.map (fun req => Event.served pats req (f req))).filterMap (fun e => match e with
      | .served _ _ resp => some resp
      | _ => none) = reqs.map f := by
  induction reqs with
  | nil => rfl
  | cons r rs ih => simpa [List.filterMap_cons] using ih

theorem listenAddrs_main (os : OS) (net : Network) (lib : Stdlib) :
    listenAddrs (main os net lib) = [bytes ":25252"] := by
  rw [main_eq]
  cases net (bytes ":25252") with
  | bindError err => rfl
  | serveError reqs err =>
    simp only [listenAddrs, List.filterMap_append, filterMap_served_addrs]
    rfl
  | serving reqs =>
    simp only [listenAddrs, List.filterMap_append, filterMap_served_addrs]
    rfl

theorem responsesOf_main (os : OS) (net : Network) (lib : Stdlib) :
    responsesOf (main os net lib)
      = (net (bytes ":25252")).requests.map (answer lib none (rootMux lib)) := by
  rw [main_eq]
  cases net (bytes ":25252") with
  | bindError err => rfl
  | serveError reqs err =>
    simp only [responsesOf, List.filterMap_append, filterMap_served_responses]
    rfl
  | serving reqs =>
    simp only [responsesOf, List.filterMap_append, filterMap_served_responses]
    rfl

/-- C3, as the code has it: when the listener fails to bind, ListenAndServe returns the
error, main drops it and returns, and the process ends with exit status 0. -/
theorem bind_failure_exit_status (os : OS) (net : Network) (lib : Stdlib) (err : error)
    (h : net (bytes ":25252") = ListenOutcome.bindError err) :
    (main os net lib).exit = some 0 := by
  rw [main_eq, h]

theorem bind_failure_exit_status_witness :
    (fun _ => ListenOutcome.bindError "listen tcp :25252: bind: address already in use"
      : Network) (bytes ":25252")
      = ListenOutcome.bindError "listen tcp :25252: bind: address already in use"
    ∧ (main emptyOS
        (fun _ => ListenOutcome.bindError "listen tcp :25252: bind: address already in use")
        plainLib).exit = some 0 :=
  ⟨rfl, bind_failure_exit_status emptyOS _ plainLib _ rfl⟩

/-- C3 fails as stated: with port 25252 already taken the process ends with exit
status 0, not with a status other than 0. -/
theorem bind_failure_exit_not_nonzero :
    (main emptyOS
      (fun _ => ListenOutcome.bindError "listen tcp :25252: bind: address already in use")
      plainLib).exit = some 0
    ∧ ¬ ∃ n : Nat, n ≠ 0 ∧
        (main emptyOS
          (fun _ => ListenOutcome.bindError "listen tcp :25252: bind: address already in use")
          plainLib).exit = some n := by
  refine ⟨rfl, ?_⟩
  rintro ⟨n, hn, h⟩
  have h0 : (main emptyOS
      (fun _ => ListenOutcome.bindError "listen tcp :25252: bind: address already in use")
      plainLib).exit = some 0 := rfl
  rw [h0] at h
  exact hn (Option.some.inj h).symm

/-- C4: on bind failure the process ends and nothing is retried. For every error the
bind fails with, main has returned (the process has an exit status), its events are
the registration, the one call of ListenAndServe and the one failed bind, in this
order and nothing else: no second bind, no second ListenAndServe, no request served. -/
theorem bind_failure_terminates (os : OS) (net : Network) (lib : Stdlib) (err : error)
    (h : net (bytes ":25252") = ListenOutcome.bindError err) :
    (main os net lib).exit.isSome = true
    ∧ (main os net lib).trace
        = [Event.HandleFunc (bytes "/"), Event.ListenAndServe (bytes ":25252") true,
           Event.Listen (bytes ":25252") false]
    ∧ listenAddrs (main os net lib) = [bytes ":25252"]
    ∧ responsesOf (main os net lib) = [] := by
  refine ⟨?_, ?_, listenAddrs_main os net lib, ?_⟩
  · rw [main_eq, h]
    rfl
  · rw [main_eq, h]
    rfl
  · rw [responsesOf_main, h]
    rfl

theorem bind_failure_terminates_witness :
    (fun _ => ListenOutcome.bindError "address already in use" : Network) (bytes ":25252")
      = ListenOutcome.bindError "address already in use"
    ∧ (main emptyOS (fun _ => ListenOutcome.bindError "address already in use")
        plainLib).exit.isSome = true
    ∧ (main emptyOS (fun _ => ListenOutcome.bindError "address already in use")
        plainLib).trace
        = [Event.HandleFunc (bytes "/"), Event.ListenAndServe (bytes ":25252") true,
           Event.Listen (bytes ":25252") false]
    ∧ listenAddrs (main emptyOS (fun _ => ListenOutcome.bindError "address already in use")
        plainLib) = [bytes ":25252"]
    ∧ responsesOf (main emptyOS (fun _ => ListenOutcome.bindError "address already in use")
        plainLib) = [] :=
  ⟨rfl, bind_failure_terminates emptyOS _ plainLib _ rfl⟩

/-- C5: the listening address is fixed. For every command line, environment and file
system, and every state of the network, main calls ListenAndServe once, with the
constant ":25252", and that is the address net.Listen is called with; SplitHostPort
reads it as the empty host (all interfaces) and port 25252. -/
theorem listen_address_fixed (os : OS) (net : Network) (lib : Stdlib) :
    listenAddrs (main os net lib) = [bytes ":25252"]
    ∧ (∃ bound rest, (main os net lib).trace
        = Event.HandleFunc (bytes "/") :: Event.ListenAndServe (bytes ":25252") true
          :: Event.Listen (bytes ":25252") bound :: rest
        ∧ ∀ e ∈ rest, ∃ req resp, e = Event.served [bytes "/"] req resp)
    ∧ SplitHostPort (bytes ":25252") = .ok ([], bytes "25252")
    ∧ decimal (bytes "25252") = some 25252 := by
  refine ⟨listenAddrs_main os net lib, ?_, rfl, by decide⟩
  rw [main_eq]
  cases net (bytes ":25252") with
  | bindError err => exact ⟨false, [], rfl, by simp⟩
  | serveError reqs err =>
    refine ⟨true, _, rfl, ?_⟩
    intro e he
    obtain ⟨req, _, rfl⟩ := List.mem_map.mp he
    exact ⟨req, _, rfl⟩
  | serving reqs =>
    refine ⟨true, _, rfl, ?_⟩
    intro e he
    obtain ⟨req, _, rfl⟩ := List.mem_map.mp he
    exact ⟨req, _, rfl⟩

/-- C10: no request is dispatched against an empty routing table. In every run of
main the registration of the root handler under "/" is the first event and comes
before the call of ListenAndServe; it is the only registration; every request that is
served is dispatched while DefaultServeMux holds exactly the pattern "/"; and at every
point of the run DefaultServeMux holds that pattern alone, bound to the root handler. -/
theorem root_registered_before_serving (os : OS) (net : Network) (lib : Stdlib) :
    (∃ bound, (main os net lib).trace
        = [Event.HandleFunc (bytes "/"), Event.ListenAndServe (bytes ":25252") true,
           Event.Listen (bytes ":25252") bound]
          ++ (net (bytes ":25252")).requests.map (fun req =>
              Event.served [bytes "/"] req (answer lib none (rootMux lib) req)))
    ∧ (main os net lib).DefaultServeMux.m.map (fun kv => kv.1) = [bytes "/"]
    ∧ (main os net lib).DefaultServeMux.m.map (fun kv => kv.2.pattern) = [bytes "/"]
    ∧ (main os net lib).DefaultServeMux.m.map (fun kv => kv.2.h)
        = [rootHandler lib (responseWriter lib)]
    ∧ (main os net lib).exit ≠ some 2 := by
  rw [main_eq]
  cases net (bytes ":25252") with
  | bindError err => exact ⟨⟨false, rfl⟩, rfl, rfl, rfl, by simp⟩
  | serveError reqs err => exact ⟨⟨true, rfl⟩, rfl, rfl, rfl, by simp⟩
  | serving reqs => exact ⟨⟨true, rfl⟩, rfl, rfl, rfl, by simp⟩

theorem bytes_slash : bytes "/" = [47] := rfl

theorem lookup_single (k a : Bytes) (v : muxEntry) :
    List.lookup k [(a, v)] = if k = a then some v else none := by
  by_cases h : k = a
  · simp [List.lookup, h]
  · have hb : (k == a) = false := by simpa using h
    simp [List.lookup, hb, h]

theorem shouldRedirect_root (lib : Stdlib) (host path : Bytes) :
    ServeMux.shouldRedirectRLocked (rootMux lib) host path = false := by
  unfold ServeMux.shouldRedirectRLocked
  simp only [rootMux, lookup_single]
  by_cases h0 : path.length = 0
  · simp [h0]
  · have h1 : path ++ [47] ≠ bytes "/" := by
      intro h
      have := congrArg List.length h
      simp [bytes_slash] at this
      exact h0 (by simpa using this)
    have h2 : host ++ path ++ [47] ≠ bytes "/" := by
      intro h
      have := congrArg List.length h
      simp [bytes_slash] at this
      omega
    rw [if_neg h0, if_neg h1, if_neg h2]
    simp

theorem find_root (lib : Stdlib) (path : Bytes) (h : path.head? = some 47) :
    ∃ e, ServeMux.find (rootMux lib) path = some e
      ∧ e.h = rootHandler lib (responseWriter lib) ∧ e.pattern = bytes "/" := by
  cases path with
  | nil => simp at h
  | cons c t =>
    simp only [List.head?_cons, Option.some.injEq] at h
    subst h
    unfold ServeMux.find
    simp only [rootMux, lookup_single]
    by_cases hk : (47 : UInt8) :: t = bytes "/"
    · rw [if_pos hk]
      exact ⟨_, rfl, rfl, rfl⟩
    · rw [if_neg hk]
      refine ⟨{ h := rootHandler lib (responseWriter lib), pattern := bytes "/" }, ?_, rfl, rfl⟩
      have hpre : List.isPrefixOf (bytes "/") ((47 : UInt8) :: t) = true := by
        rw [bytes_slash]
        simp [List.isPrefixOf]
      simp only [List.find?, hpre]

theorem handler_root (lib : Stdlib) (host path : Bytes) (h : path.head? = some 47) :
    ServeMux.handler lib (rootMux lib) host path
      = (rootHandler lib (responseWriter lib), bytes "/") := by
  obtain ⟨e, he, h1, h2⟩ := find_root lib path h
  unfold ServeMux.handler
  have hh : (rootMux lib).hosts = false := rfl
  simp [hh, he, h1, h2]

theorem Handler_root (lib : Stdlib) (req : Request)
    (hp : if req.Method = bytes "CONNECT" then req.URL.Path.head? = some 47
          else cleanPath req.URL.Path = req.URL.Path) :
    ServeMux.Handler lib (rootMux lib) req
      = (rootHandler lib (responseWriter lib), bytes "/") := by
  unfold ServeMux.Handler
  by_cases hc : req.Method = bytes "CONNECT"
  · rw [if_pos hc] at hp
    rw [if_pos hc, shouldRedirect_root]
    simpa using handler_root lib req.Host req.URL.Path hp
  · rw [if_neg hc] at hp
    rw [if_neg hc]
    simp only [shouldRedirect_root, hp]
    simpa using handler_root lib (stripHostPort req.Host) req.URL.Path
      (cleanPath_fixed_head _ hp)

theorem rootHandler_newResponse (lib : Stdlib) (req r : Request)
    (hm : req.Method ≠ bytes "HEAD") :
    rootHandler lib (responseWriter lib) (newResponse req) r
      = { w := { req := req, handlerHeader := [], wroteHeader := true, status := 200,
                 contentLength := none, written := 19,
                 body := bytes "simply proxy server" },
          r := r, panic := none } := by
  rw [rootHandler_eq]
  show ({ w := (response.Write lib responseText (newResponse req)).2, r := r,
          panic := match (response.Write lib responseText (newResponse req)).1 with
            | .returned _ _ => none
            | .panicked v => some v } : HandlerResult response) = _
  have hl : responseText.length = 19 := by decide
  have hw : response.Write lib responseText (newResponse req)
      = (WriteOutcome.returned 19 none,
          { req := req, handlerHeader := [], wroteHeader := true, status := 200,
            contentLength := none, written := 19, body := bytes "simply proxy server" }) := by
    simp [response.Write, response.writeBody, response.WriteHeader, newResponse, Header.get, hl,
      bodyAllowedForStatus, hm]
    rfl
  rw [hw]

theorem lookup_Del (h : Header) (k k' : Bytes) (hk : k' ≠ k) :
    (Header.Del h k).lookup k' = h.lookup k' := by
  induction h with
  | nil => rfl
  | cons kv t ih =>
    unfold Header.Del at ih ⊢
    by_cases h1 : kv.1 = k
    · have hne : ¬ k' = kv.1 := fun e => hk (e.trans h1)
      have hb : (k' == kv.1) = false := by simpa using hne
      rw [List.filter_cons_of_neg (by simpa using h1), ih]
      obtain ⟨a, v⟩ := kv
      simp only [List.lookup, hb]
    · rw [List.filter_cons_of_pos (by simpa using h1)]
      obtain ⟨a, v⟩ := kv
      by_cases h2 : k' = a
      · have hb : (k' == a) = true := by simpa using h2
        simp only [List.lookup, hb]
      · have hb : (k' == a) = false := by simpa using h2
        simp only [List.lookup, hb]
        exact ih

theorem get_Del (h : Header) (k k' : Bytes) (hk : k' ≠ k) :
    Header.get (Header.Del h k) k' = Header.get h k' := by
  unfold Header.get
  rw [lookup_Del h k k' hk]

theorem handed_expect (req : Request) :
    Header.get (handed req).Header (bytes "Expect") = Header.get req.Header (bytes "Expect")
    ∧ (handed req).expectsContinue = req.expectsContinue := by
  have h : Header.get (handed req).Header (bytes "Expect")
      = Header.get req.Header (bytes "Expect") :=
    get_Del req.Header (bytes "Host") (bytes "Expect") (by decide)
  refine ⟨h, ?_⟩
  unfold Request.expectsContinue
  rw [h]

theorem connRead_dispatch (lib : Stdlib) (req : Request)
    (hchk : checkRequest lib req = none)
    (hexp : req.expectsContinue = true ∨ Header.get req.Header (bytes "Expect") = []) :
    connRead lib req = Read.dispatch (newResponse (handed req)) := by
  unfold connRead
  rw [hchk]
  have he := handed_expect req
  show (if (handed req).expectsContinue then Read.dispatch (newResponse (handed req))
    else if Header.get (handed req).Header (bytes "Expect") ≠ [] then
      Read.reject (sendExpectationFailed lib (newResponse (handed req)))
    else Read.dispatch (newResponse (handed req))) = _
  rw [he.1, he.2]
  rcases hexp with h | h
  · simp [h]
  · simp [h]

theorem answer_root (lib : Stdlib) (req : Request)
    (hchk : checkRequest lib req = none)
    (hexp : req.expectsContinue = true ∨ Header.get req.Header (bytes "Expect") = [])
    (hm : req.Method ≠ bytes "HEAD") (hu : req.RequestURI ≠ bytes "*")
    (hp : if req.Method = bytes "CONNECT" then req.URL.Path.head? = some 47
          else cleanPath req.URL.Path = req.URL.Path) :
    answer lib none (rootMux lib) req
      = { req := handed req, handlerHeader := [], wroteHeader := true, status := 200,
          contentLength := none, written := 19, body := bytes "simply proxy server" } := by
  have hu' : (handed req).RequestURI ≠ bytes "*" := hu
  have hm' : (handed req).Method ≠ bytes "HEAD" := hm
  have hsel : ServeMux.Handler lib (rootMux lib) (handed req)
      = (rootHandler lib (responseWriter lib), bytes "/") := Handler_root lib (handed req) hp
  unfold answer
  rw [connRead_dispatch lib req hchk hexp]
  show finishHandler lib
    (serverHandler lib none (rootMux lib) (newResponse (handed req)) (handed req)) = _
  have hs : serverHandler lib none (rootMux lib) (newResponse (handed req)) (handed req)
      = rootHandler lib (responseWriter lib) (newResponse (handed req)) (handed req) := by
    unfold serverHandler
    simp only [hu', false_and, if_false, ServeMux.ServeHTTP, hsel]
  rw [hs, rootHandler_newResponse lib (handed req) (handed req) hm']
  rfl

/-- C2, as the code has it: the server as wired in main answers a request with status
200 and the body "simply proxy server" when the request reaches the root handler and
may carry a body. That is: conn.readRequest accepts it (HTTP/1.x, the Host header it
needs, valid header names and values), its Expect header is absent or holds
100-continue, its method is not HEAD, its request target is not "*", and its path is
one ServeMux does not redirect: for CONNECT a path that begins with a slash, for every
other method a path that cleanPath leaves as it is. -/
theorem served_request_gets_text (os : OS) (net : Network) (lib : Stdlib) (i : Nat)
    (req : Request)
    (hreq : (net (bytes ":25252")).requests[i]? = some req)
    (hchk : checkRequest lib req = none)
    (hexp : req.expectsContinue = true ∨ Header.get req.Header (bytes "Expect") = [])
    (hm : req.Method ≠ bytes "HEAD") (hu : req.RequestURI ≠ bytes "*")
    (hp : if req.Method = bytes "CONNECT" then req.URL.Path.head? = some 47
          else cleanPath req.URL.Path = req.URL.Path) :
    ∃ w, (responsesOf (main os net lib))[i]? = some w
      ∧ w.body = bytes "simply proxy server" ∧ w.status = 200 ∧ w.req = handed req := by
  refine ⟨answer lib none (rootMux lib) req, ?_, ?_, ?_, ?_⟩
  · rw [responsesOf_main, List.getElem?_map, hreq]
    rfl
  · rw [answer_root lib req hchk hexp hm hu hp]
  · rw [answer_root lib req hchk hexp hm hu hp]
  · rw [answer_root lib req hchk hexp hm hu hp]

theorem served_request_gets_text_witness :
    ∃ w, (responsesOf (main emptyOS
        (fun _ => ListenOutcome.serving
          [request "GET" "/", request "GET" "/anything/else", request "POST" "/"])
        plainLib))[1]? = some w
      ∧ w.body = bytes "simply proxy server" ∧ w.status = 200
      ∧ w.req = handed (request "GET" "/anything/else") :=
  served_request_gets_text emptyOS
    (fun _ => ListenOutcome.serving
      [request "GET" "/", request "GET" "/anything/else", request "POST" "/"])
    plainLib 1 (request "GET" "/anything/else") rfl (by decide) (by decide) (by decide)
    (by decide) (by decide)

theorem spec_scenarios :
    (responsesOf (main emptyOS
        (fun _ => ListenOutcome.serving
          [request "GET" "/", request "GET" "/anything/else",
           { request "POST" "/" with Body := bytes "arbitrary body" }])
        plainLib)).map (fun w => (w.status, w.body))
      = [(200, bytes "simply proxy server"), (200, bytes "simply proxy server"),
         (200, bytes "simply proxy server")] := by
  decide

theorem refused_before_the_handler :
    (responsesOf (main emptyOS
        (fun _ => ListenOutcome.serving
          [{ request "GET" "/" with
              Header := [(bytes "Host", [bytes "localhost:25252"]),
                         (bytes "Expect", [bytes "foo"])] },
           { request "GET" "/" with Header := [] },
           { request "GET" "/" with ProtoMajor := 2 }])
        plainLib)).map (fun w => w.status)
      = [417, 400, 505] := by
  decide

/-- C2 fails as stated: a GET whose path has a doubled slash is answered by ServeMux
with a redirect, status 301 and an HTML note as body, and a HEAD request for "/" is
answered with an empty body; neither body is "simply proxy server". -/
theorem served_body_not_always_text :
    (responsesOf (main emptyOS
        (fun _ => ListenOutcome.serving
          [request "GET" "//anything/else", request "HEAD" "/"])
        plainLib)).map (fun w => (w.status, w.body))
      = [(301, bytes "<a href=\"/anything/else\">Moved Permanently</a>.\n\n"), (200, [])]
    ∧ bytes "<a href=\"/anything/else\">Moved Permanently</a>.\n\n"
        ≠ bytes "simply proxy server"
    ∧ ([] : Bytes) ≠ bytes "simply proxy server" := by
  refine ⟨by decide, by decide, by decide⟩

/-! ### Requests handled at the same time -/

end HttpServer
